import Mathlib

/-!
Shallow embedding of `compiler/rustc_passes/src/check_const.rs`: the pass that
checks HIR bodies which may be evaluated at compile time for structured control
flow, plus the const-trait-impl override check.  Machine identifiers (`DefId`,
spans) are modelled as `Nat`; external `TyCtxt` queries become function fields.
-/

namespace CheckConst

/-- A `rustc_span::Span`, modelled as a bare identifier. -/
abbrev Span := Nat

/-- A `LocalDefId`, modelled as a bare identifier. -/
abbrev DefId := Nat

/-- The feature-gate symbols mentioned by this pass (`sym::const_for`,
`sym::const_try`).  `other` stands for any further interned symbol that an
allow-list attribute might name. -/
inductive Symbol where
  | const_for
  | const_try
  | other (n : Nat)
deriving DecidableEq, Repr

/-- `hir::LoopSource`. -/
inductive LoopSource where
  | Loop
  | While
  | ForLoop
deriving DecidableEq, Repr

/-- `hir::MatchSource` (the variants existing at this commit). -/
inductive MatchSource where
  | Normal
  | ForLoopDesugar
  | TryDesugar
  | AwaitDesugar
deriving DecidableEq, Repr

/-- `LoopSource::name`. -/
def LoopSource.name : LoopSource → String
  | .Loop => "loop"
  | .While => "while"
  | .ForLoop => "for"

/-- `MatchSource::name`. -/
def MatchSource.name : MatchSource → String
  | .Normal => "match"
  | .ForLoopDesugar => "for"
  | .TryDesugar => "?"
  | .AwaitDesugar => ".await"

/-- `NonConstExpr`: an expression that is not always legal in a const context. -/
inductive NonConstExpr where
  | Loop (src : LoopSource)
  | Match (src : MatchSource)
deriving DecidableEq, Repr

/-- `NonConstExpr::name`. -/
def NonConstExpr.name : NonConstExpr → String
  | .Loop src => "`" ++ src.name ++ "`"
  | .Match src => "`" ++ src.name ++ "`"

/-- `NonConstExpr::required_feature_gates`. -/
def NonConstExpr.required_feature_gates : NonConstExpr → Option (List Symbol)
  | .Match .AwaitDesugar => none
  | .Loop .ForLoop => some [Symbol.const_for]
  | .Match .ForLoopDesugar => some [Symbol.const_for]
  | .Match .TryDesugar => some [Symbol.const_try]
  | .Loop .Loop => some []
  | .Loop .While => some []
  | .Match .Normal => some []

/-- `hir::ConstContext`. -/
inductive ConstContext where
  | ConstFn
  | Static (mutable : Bool)
  | Const
deriving DecidableEq, Repr

/-- `ConstContext::keyword_name`. -/
def ConstContext.keyword_name : ConstContext → String
  | .ConstFn => "const fn"
  | .Static _ => "static"
  | .Const => "const"

/-- The slice of `rustc_feature::Features` this pass reads. -/
structure Features where
  enabled : Symbol → Bool
  staged_api : Bool

/-- The slice of `TyCtxt` (and session) state this pass queries.
`trait_of_item` models `tcx.trait_of_item(d).is_some()`;
`has_rustc_const_unstable` models `tcx.has_attr(d, sym::rustc_const_unstable)`;
`rustc_allow_const_fn_unstable` models the gate names listed by that attribute;
`body_const_context` models `tcx.hir().body_const_context(owner)`. -/
structure TyCtxt where
  features : Features
  trait_of_item : DefId → Bool
  has_rustc_const_unstable : DefId → Bool
  rustc_allow_const_fn_unstable : DefId → List Symbol
  unleash_the_miri_inside_of_you : Bool
  is_nightly_build : Bool
  body_const_context : DefId → Option ConstContext

/-- A diagnostic pushed to the sink. `feature_err` carries the primary missing
gate and the ordered list of supplementary help notes; `struct_span_err`
carries the fixed error code. -/
inductive Diagnostic where
  | span_warn (span : Span) (msg : String)
  | struct_span_err (code : String) (span : Span) (msg : String)
  | feature_err (primary : Symbol) (span : Span) (msg : String) (helps : List String)
  | const_trait_impl_err (span : Span) (msg : String) (note : String)
deriving DecidableEq, Repr

/-- The `is_feature_allowed` closure of `const_check_violated`. -/
def is_feature_allowed (tcx : TyCtxt) (def_id : Option DefId) (feature_gate : Symbol) : Bool :=
  -- All features require that the corresponding gate be enabled.
  if !(tcx.features.enabled feature_gate) then false
  else
    match def_id with
    -- If `def_id` is `None`, we don't need to consider stability attributes.
    | none => true
    | some d =>
      -- If the function belongs to a trait, that is all that is required.
      if tcx.trait_of_item d then true
      -- Not using stability attributes, or not claiming to be a stable `const fn`.
      else if !tcx.features.staged_api || tcx.has_rustc_const_unstable d then true
      -- Stable `const fn`s need an explicit `rustc_allow_const_fn_unstable` opt-in.
      else (tcx.rustc_allow_const_fn_unstable d).any (fun nm => nm == feature_gate)

/-- The message `"{expr.name()} is not allowed in a `{const_kind.keyword_name()}`"`. -/
def violationMsg (nm : String) (const_kind : ConstContext) : String :=
  nm ++ " is not allowed in a `" ++ const_kind.keyword_name ++ "`"

/-- The help note `feature_err` appends for each missing secondary gate. -/
def featureHelpNote (gate : Symbol) : String :=
  let nm := match gate with
    | Symbol.const_for => "const_for"
    | Symbol.const_try => "const_try"
    | Symbol.other n => "gate" ++ toString n
  "add `#![feature(" ++ nm ++ ")]` to the crate attributes to enable"

/-- The diagnostic-synthesis tail of `const_check_violated`: compute
`missing_gates` from the required gates and build either the plain `E0744`
error or a `feature_err` with secondary gates as help notes (nightly only). -/
def emitViolationDiag (tcx : TyCtxt) (required_gates : Option (List Symbol))
    (nm : String) (const_kind : ConstContext) (span : Span) : Diagnostic :=
  let msg := violationMsg nm const_kind
  let gates := required_gates.getD []
  let missing_gates := gates.filter (fun g => !(tcx.features.enabled g))
  match missing_gates with
  | [] => Diagnostic.struct_span_err "E0744" span msg
  | missing_primary :: missing_secondary =>
    let helps :=
      if tcx.is_nightly_build then missing_secondary.map featureHelpNote else []
    Diagnostic.feature_err missing_primary span msg helps

/-- `CheckConstVisitor::const_check_violated`.  Returns the list of emitted
diagnostics, or `Except.error` for the `const_kind.expect(..)` panic. -/
def constCheckViolated (tcx : TyCtxt) (def_id : Option DefId)
    (const_kind : Option ConstContext) (expr : NonConstExpr) (span : Span) :
    Except String (List Diagnostic) :=
  let required_gates := expr.required_feature_gates
  let pass :=
    match required_gates with
    | some gates => gates.all (is_feature_allowed tcx def_id)
    | none => false
  -- `Some(gates) if gates.iter().copied().all(is_feature_allowed) => return`
  if pass then Except.ok []
  -- `None if unleash_the_miri_inside_of_you => { span_warn(..); return }`
  else if required_gates.isNone && tcx.unleash_the_miri_inside_of_you then
    Except.ok [Diagnostic.span_warn span "skipping const checks"]
  else
    match const_kind with
    | none => Except.error "`const_check_violated` may only be called inside a const context"
    | some ck => Except.ok [emitViolationDiag tcx required_gates expr.name ck span]

/-- `hir::Constness`. -/
inductive Constness where
  | Const
  | NotConst
deriving DecidableEq, Repr

/-- One `ty::AssocItem` of `Fn` kind as `check_item` inspects it.
`has_default_body` models `defaultness.has_value()`; `default_body_is_const`
models `tcx.has_attr(item, sym::default_method_body_is_const)`;
`leaf_def_is_from_trait` models `ancestors.leaf_def(tcx, item)` mapped to
`defining_node.is_from_trait()` (`none` when `leaf_def` returns `None`). -/
structure TraitItemData where
  nm : String
  is_fn : Bool
  has_default_body : Bool
  default_body_is_const : Bool
  leaf_def_is_from_trait : Option Bool
deriving DecidableEq, Repr

/-- `hir::ItemKind`, restricted to what `check_item` distinguishes.
`of_trait_items` is `some` only when `of_trait`, `trait_def_id` and the
`ancestors(..).ok()` queries all succeed; it then holds the trait's associated
items in definition order. -/
inductive ItemKind where
  | impl (constness : Constness) (of_trait_items : Option (List TraitItemData))
  | otherItem
deriving DecidableEq, Repr

/-- A `hir::Item` as this pass consumes it. -/
structure Item where
  span : Span
  kind : ItemKind
deriving DecidableEq, Repr

/-- `check_item`: the const-trait-impl override check.  Returns the emitted
diagnostics (zero or one). -/
def checkItem (item : Item) : List Diagnostic :=
  match item.kind with
  | ItemKind.impl Constness.Const (some trait_items) =>
    let to_implement := trait_items.filterMap (fun ti =>
      if ti.is_fn then
        -- ignore functions that do not have default bodies, and functions
        -- marked `#[default_method_body_is_const]`
        if !ti.has_default_body || ti.default_body_is_const then none
        else
          let is_implemented :=
            ((ti.leaf_def_is_from_trait.map (fun b => !b)).getD false)
          if !is_implemented then some ti.nm else none
      else none)
    if to_implement.isEmpty then []
    else
      let not_implemented := String.intercalate "`, `" to_implement
      [Diagnostic.const_trait_impl_err item.span
        "const trait implementations may not use non-const default functions"
        ("`" ++ not_implemented ++ "` not implemented")]
  | _ => []

/-- The `hir::ExprKind` discrimination `visit_expr` performs: loop expressions
(with their `LoopSource`), match expressions (with their `MatchSource`), and
everything else. -/
inductive ExprSrc where
  | Loop (source : LoopSource)
  | Match (source : MatchSource)
  | Other
deriving DecidableEq, Repr

/-- The HIR slice this pass traverses: items, bodies (with their owner
`DefId`), anonymous constants, and expressions.  Expression kinds other than
`Loop` and `Match` are collapsed into `Other`. -/
inductive Hir where
  | item (it : Item) (children : List Hir)
  | body (owner : DefId) (children : List Hir)
  | anonConst (children : List Hir)
  | expr (src : ExprSrc) (span : Span) (children : List Hir)
deriving Repr

/-- The fields of `CheckConstVisitor` other than `tcx`. -/
structure VState where
  const_kind : Option ConstContext
  def_id : Option DefId
deriving DecidableEq, Repr

/-- `CheckConstVisitor::new` starts with no context and no enclosing item. -/
def visitorNew : VState := { const_kind := none, def_id := none }

/-- The expression dispatch of `CheckConstVisitor::visit_expr` (before the
recursion into children). -/
def exprCheck (tcx : TyCtxt) (st : VState) (src : ExprSrc) (span : Span) :
    Except String (List Diagnostic) :=
  -- Skip the checks if we are not currently in a const context.
  if st.const_kind.isNone then Except.ok []
  else
    match src with
    | ExprSrc.Loop source =>
      constCheckViolated tcx st.def_id st.const_kind (NonConstExpr.Loop source) span
    | ExprSrc.Match source =>
      match source with
      -- `ForLoopDesugar` matches are handled by the `ExprKind::Loop` check.
      | MatchSource.ForLoopDesugar => Except.ok []
      | _ => constCheckViolated tcx st.def_id st.const_kind (NonConstExpr.Match source) span
    | ExprSrc.Other => Except.ok []

mutual

/-- The `Visitor` impl for `CheckConstVisitor`, threading the mutable
`(const_kind, def_id)` fields explicitly.  Each case mirrors the corresponding
`visit_*` method; the `body` and `anonConst` cases inline `recurse_into`
(save the parent pair, set the new pair, recurse, restore the parent pair). -/
def visitNode (tcx : TyCtxt) (st : VState) :
    Hir → Except String (VState × List Diagnostic)
  | Hir.item it children =>
    -- `visit_item`: `walk_item` first, `check_item` afterwards.
    match visitList tcx st children with
    | Except.error e => Except.error e
    | Except.ok (st1, ds) => Except.ok (st1, ds ++ checkItem it)
  | Hir.body owner children =>
    -- `visit_body`: `recurse_into(body_const_context(owner), Some(owner), ..)`.
    match visitList tcx
        { st with const_kind := tcx.body_const_context owner, def_id := some owner }
        children with
    | Except.error e => Except.error e
    | Except.ok (st1, ds) =>
      Except.ok ({ st1 with const_kind := st.const_kind, def_id := st.def_id }, ds)
  | Hir.anonConst children =>
    -- `visit_anon_const`: `recurse_into(Some(ConstContext::Const), None, ..)`.
    match visitList tcx
        { st with const_kind := some ConstContext.Const, def_id := none }
        children with
    | Except.error e => Except.error e
    | Except.ok (st1, ds) =>
      Except.ok ({ st1 with const_kind := st.const_kind, def_id := st.def_id }, ds)
  | Hir.expr src span children =>
    -- `visit_expr`: dispatch on the expression kind, then `walk_expr`.
    match exprCheck tcx st src span with
    | Except.error e => Except.error e
    | Except.ok ds0 =>
      match visitList tcx st children with
      | Except.error e => Except.error e
      | Except.ok (st1, ds) => Except.ok (st1, ds0 ++ ds)

/-- Visit a list of sibling nodes left to right, threading the state. -/
def visitList (tcx : TyCtxt) (st : VState) :
    List Hir → Except String (VState × List Diagnostic)
  | [] => Except.ok (st, [])
  | n :: ns =>
    match visitNode tcx st n with
    | Except.error e => Except.error e
    | Except.ok (st1, ds1) =>
      match visitList tcx st1 ns with
      | Except.error e => Except.error e
      | Except.ok (st2, ds2) => Except.ok (st2, ds1 ++ ds2)

end

/-! Spec-side definitions, written from the specification's words, to be
compared with the definitions translated from the source. -/

/-- Spec-side: the four-step gate policy of §4.2 step 3, short-circuiting to
disallowed at the first failing step: (a) the named capability must be
globally enabled, else disallowed; (b) if no enclosing declaration is known,
allowed; (c) if the enclosing declaration belongs to a trait definition,
allowed; (d) if the compilation is not using the staged public-stability
protocol, or the declaration is marked unstable, allowed; otherwise allowed
only if the declaration carries an allow-list annotation naming this exact
gate. -/
def specGateAllowed (tcx : TyCtxt) (decl : Option DefId) (gate : Symbol) : Bool :=
  if !(tcx.features.enabled gate) then false
  else
    match decl with
    | none => true
    | some d =>
      if tcx.trait_of_item d then true
      else if !tcx.features.staged_api then true
      else if tcx.has_rustc_const_unstable d then true
      else (tcx.rustc_allow_const_fn_unstable d).contains gate

/-- Spec-side: the unresolved methods of a compile-time trait implementation
(§4.3): function-like associated items that have a default body, are not
certified compile-time-safe, and whose override is not supplied by the
implementation itself (ancestor lookup resolves to a trait node or to
nothing), listed in definition order. -/
def specUnresolved (trait_items : List TraitItemData) : List String :=
  (trait_items.filter (fun ti =>
    ti.is_fn && ti.has_default_body && !ti.default_body_is_const &&
      !((ti.leaf_def_is_from_trait.map (fun b => !b)).getD false))).map
    (fun ti => ti.nm)

mutual

/-- Spec-side traversal (§4.1, §9 option (a)): the `(context, declaration)`
pair is an immutable value threaded through each recursive call, replaced at
a body or anonymous compile-time sub-expression and inherited everywhere
else; the pair active at any node is therefore the one pushed by the nearest
enclosing body or anonymous sub-expression, or `(none, none)` if none. -/
def specVisitNode (tcx : TyCtxt) (kind : Option ConstContext) (decl : Option DefId) :
    Hir → Except String (List Diagnostic)
  | Hir.item it children =>
    match specVisitList tcx kind decl children with
    | Except.error e => Except.error e
    | Except.ok ds => Except.ok (ds ++ checkItem it)
  | Hir.body owner children =>
    specVisitList tcx (tcx.body_const_context owner) (some owner) children
  | Hir.anonConst children =>
    specVisitList tcx (some ConstContext.Const) none children
  | Hir.expr src span children =>
    match exprCheck tcx { const_kind := kind, def_id := decl } src span with
    | Except.error e => Except.error e
    | Except.ok ds0 =>
      match specVisitList tcx kind decl children with
      | Except.error e => Except.error e
      | Except.ok ds => Except.ok (ds0 ++ ds)

/-- Spec-side traversal over sibling nodes: all siblings see the same pair. -/
def specVisitList (tcx : TyCtxt) (kind : Option ConstContext) (decl : Option DefId) :
    List Hir → Except String (List Diagnostic)
  | [] => Except.ok []
  | n :: ns =>
    match specVisitNode tcx kind decl n with
    | Except.error e => Except.error e
    | Except.ok ds1 =>
      match specVisitList tcx kind decl ns with
      | Except.error e => Except.error e
      | Except.ok ds2 => Except.ok (ds1 ++ ds2)

end

/-! Concrete session fixtures used by counterexamples and witnesses. -/

/-- A session with every feature gate disabled, no stability attributes,
nightly build, and every body classified as a `const` body. -/
def tcxA : TyCtxt :=
  { features := { enabled := fun _ => false, staged_api := false },
    trait_of_item := fun _ => false,
    has_rustc_const_unstable := fun _ => false,
    rustc_allow_const_fn_unstable := fun _ => [],
    unleash_the_miri_inside_of_you := false,
    is_nightly_build := true,
    body_const_context := fun _ => some ConstContext.Const }

/-- A staged-api session with `const_for` enabled, where body owners are
stable `const fn`s with no allow-list. -/
def tcxB : TyCtxt :=
  { features := { enabled := fun g => g == Symbol.const_for, staged_api := true },
    trait_of_item := fun _ => false,
    has_rustc_const_unstable := fun _ => false,
    rustc_allow_const_fn_unstable := fun _ => [],
    unleash_the_miri_inside_of_you := false,
    is_nightly_build := true,
    body_const_context := fun _ => some ConstContext.ConstFn }

/-- A nightly session with only `const_try` enabled. -/
def tcxC : TyCtxt :=
  { features := { enabled := fun g => g == Symbol.const_try, staged_api := false },
    trait_of_item := fun _ => false,
    has_rustc_const_unstable := fun _ => false,
    rustc_allow_const_fn_unstable := fun _ => [],
    unleash_the_miri_inside_of_you := false,
    is_nightly_build := true,
    body_const_context := fun _ => some ConstContext.Const }

/-! Theorems.  Shared helper lemmas come first, then one theorem per claim
(with witnesses and counterexamples where called for). -/

/-- Helper: `l.any (· == g)` agrees with `l.contains g`. -/
theorem any_beq_eq_contains (l : List Symbol) (g : Symbol) :
    (l.any fun nm => nm == g) = l.contains g := by
  induction l with
  | nil => rfl
  | cons a l ih =>
    simp only [List.any_cons, List.contains_cons, ih]
    cases h : a == g
    · have hne : ¬ (g == a) = true := by
        simp only [beq_iff_eq] at h ⊢
        intro hg
        exact absurd hg.symm (by simpa using h)
      simp [h, hne]
    · have heq : (g == a) = true := by
        simp only [beq_iff_eq] at h ⊢
        exact h.symm
      simp [h, heq]

/-- Helper: the `is_feature_allowed` closure computes the spec's four-step
gate policy. -/
theorem ifa_eq_spec (tcx : TyCtxt) (def_id : Option DefId) (g : Symbol) :
    is_feature_allowed tcx def_id g = specGateAllowed tcx def_id g := by
  simp only [is_feature_allowed, specGateAllowed]
  cases hE : tcx.features.enabled g
  · simp
  · cases def_id with
    | none => simp
    | some d =>
      cases ht : tcx.trait_of_item d
      · cases hs : tcx.features.staged_api
        · simp [ht, hs]
        · cases hu : tcx.has_rustc_const_unstable d <;>
            simp [ht, hs, hu, any_beq_eq_contains]
      · simp [ht]

/-- Helper: a `filterMap` whose function is a guarded `some` is a
`filter` followed by a `map`. -/
theorem filterMap_guard_eq {α β : Type} (p : α → Bool) (f : α → β) (g : α → Option β)
    (hg : ∀ a, g a = if p a then some (f a) else none) :
    ∀ l : List α, l.filterMap g = (l.filter p).map f := by
  intro l
  induction l with
  | nil => simp
  | cons a l ih =>
    rw [List.filterMap_cons, List.filter_cons, hg a]
    cases hp : p a <;> simp [hp, ih]

/-- Helper: with a known const context, `const_check_violated` never reaches
its internal panic. -/
theorem constCheckViolated_some_ok (tcx : TyCtxt) (def_id : Option DefId) (ck : ConstContext)
    (e : NonConstExpr) (span : Span) :
    ∃ ds, constCheckViolated tcx def_id (some ck) e span = Except.ok ds := by
  cases h : constCheckViolated tcx def_id (some ck) e span with
  | ok ds => exact ⟨ds, rfl⟩
  | error msg =>
    unfold constCheckViolated at h
    dsimp only at h
    split at h
    · exact Except.noConfusion h
    · split at h
      · exact Except.noConfusion h
      · exact Except.noConfusion h

/-- Helper: the expression dispatch never reaches the panic, because it
invokes `const_check_violated` only when the current context is known. -/
theorem exprCheck_ok (tcx : TyCtxt) (st : VState) (src : ExprSrc) (span : Span) :
    ∃ ds, exprCheck tcx st src span = Except.ok ds := by
  unfold exprCheck
  cases hk : st.const_kind with
  | none => exact ⟨[], rfl⟩
  | some ck =>
    cases src with
    | Loop source =>
      exact constCheckViolated_some_ok tcx st.def_id ck (NonConstExpr.Loop source) span
    | Match source =>
      cases source with
      | Normal =>
        exact constCheckViolated_some_ok tcx st.def_id ck
          (NonConstExpr.Match MatchSource.Normal) span
      | ForLoopDesugar => exact ⟨[], rfl⟩
      | TryDesugar =>
        exact constCheckViolated_some_ok tcx st.def_id ck
          (NonConstExpr.Match MatchSource.TryDesugar) span
      | AwaitDesugar =>
        exact constCheckViolated_some_ok tcx st.def_id ck
          (NonConstExpr.Match MatchSource.AwaitDesugar) span
    | Other => exact ⟨[], rfl⟩

mutual

/-- Helper: the spec-side traversal never errors. -/
theorem specVisitNode_ok (tcx : TyCtxt) (k : Option ConstContext) (d : Option DefId) :
    (t : Hir) → ∃ ds, specVisitNode tcx k d t = Except.ok ds
  | Hir.item it children => by
    obtain ⟨ds, hds⟩ := specVisitList_ok tcx k d children
    exact ⟨ds ++ checkItem it, by simp only [specVisitNode]; rw [hds]⟩
  | Hir.body owner children => by
    simpa only [specVisitNode] using
      specVisitList_ok tcx (tcx.body_const_context owner) (some owner) children
  | Hir.anonConst children => by
    simpa only [specVisitNode] using
      specVisitList_ok tcx (some ConstContext.Const) none children
  | Hir.expr src span children => by
    obtain ⟨ds0, h0⟩ := exprCheck_ok tcx { const_kind := k, def_id := d } src span
    obtain ⟨ds, hds⟩ := specVisitList_ok tcx k d children
    exact ⟨ds0 ++ ds, by simp only [specVisitNode]; rw [h0, hds]⟩

/-- Helper: the spec-side traversal of siblings never errors. -/
theorem specVisitList_ok (tcx : TyCtxt) (k : Option ConstContext) (d : Option DefId) :
    (ts : List Hir) → ∃ ds, specVisitList tcx k d ts = Except.ok ds
  | [] => ⟨[], rfl⟩
  | n :: ns => by
    obtain ⟨ds1, h1⟩ := specVisitNode_ok tcx k d n
    obtain ⟨ds2, h2⟩ := specVisitList_ok tcx k d ns
    exact ⟨ds1 ++ ds2, by simp only [specVisitList]; rw [h1, h2]⟩

end

mutual

/-- Helper: the state-threading visitor refines the spec-side traversal with
an immutable inherited pair, and always hands back the caller's state. -/
theorem visitNode_eq_specVisit (tcx : TyCtxt) (st : VState) :
    (t : Hir) → visitNode tcx st t =
      (specVisitNode tcx st.const_kind st.def_id t).map (fun ds => (st, ds))
  | Hir.item it children => by
    have ih := visitList_eq_specVisit tcx st children
    cases h : specVisitList tcx st.const_kind st.def_id children <;>
      simp [visitNode, specVisitNode, ih, h, Except.map]
  | Hir.body owner children => by
    have ih := visitList_eq_specVisit tcx
      { st with const_kind := tcx.body_const_context owner, def_id := some owner } children
    cases h : specVisitList tcx (tcx.body_const_context owner) (some owner) children <;>
      simp [visitNode, specVisitNode, ih, h, Except.map]
  | Hir.anonConst children => by
    have ih := visitList_eq_specVisit tcx
      { st with const_kind := some ConstContext.Const, def_id := none } children
    cases h : specVisitList tcx (some ConstContext.Const) none children <;>
      simp [visitNode, specVisitNode, ih, h, Except.map]
  | Hir.expr src span children => by
    have ih := visitList_eq_specVisit tcx st children
    cases he : exprCheck tcx st src span <;>
      cases h : specVisitList tcx st.const_kind st.def_id children <;>
      simp [visitNode, specVisitNode, ih, he, h, Except.map]

/-- Helper: sibling-list version of `visitNode_eq_specVisit`. -/
theorem visitList_eq_specVisit (tcx : TyCtxt) (st : VState) :
    (ts : List Hir) → visitList tcx st ts =
      (specVisitList tcx st.const_kind st.def_id ts).map (fun ds => (st, ds))
  | [] => by simp [visitList, specVisitList, Except.map]
  | n :: ns => by
    have ihn := visitNode_eq_specVisit tcx st n
    have ihs := visitList_eq_specVisit tcx st ns
    cases hn : specVisitNode tcx st.const_kind st.def_id n <;>
      cases hs : specVisitList tcx st.const_kind st.def_id ns <;>
      simp [visitList, specVisitList, ihn, ihs, hn, hs, Except.map]

end

/-- C1: every required gate is decided by exactly the spec's four-step
policy (enabled, else disallowed; no declaration, allowed; trait
declaration, allowed; non-staged-api or unstable, allowed; otherwise an
allow-list naming the exact gate), and for a construct with a non-empty
required-gate list the resolver emits nothing iff every required gate
passes that policy. -/
theorem gate_policy_refines_spec (tcx : TyCtxt) (def_id : Option DefId) :
    (∀ g : Symbol, is_feature_allowed tcx def_id g = specGateAllowed tcx def_id g) ∧
    (∀ (e : NonConstExpr) (gates : List Symbol) (ck : ConstContext) (span : Span),
      e.required_feature_gates = some gates → gates ≠ [] →
      (constCheckViolated tcx def_id (some ck) e span = Except.ok [] ↔
        ∀ g ∈ gates, specGateAllowed tcx def_id g = true)) := by
  refine ⟨ifa_eq_spec tcx def_id, ?_⟩
  intro e gates ck span hg h2
  have hallgen : ∀ l : List Symbol, (l.all (is_feature_allowed tcx def_id)) =
      (l.all (specGateAllowed tcx def_id)) := by
    intro l
    induction l with
    | nil => rfl
    | cons a l ih => simp [List.all_cons, ih, ifa_eq_spec]
  have hall := hallgen gates
  constructor
  · intro hok
    rw [← List.all_eq_true, ← hall]
    by_contra hfalse
    rw [Bool.not_eq_true] at hfalse
    simp [constCheckViolated, hg, hfalse] at hok
  · intro hallspec
    have hpass : gates.all (is_feature_allowed tcx def_id) = true := by
      rw [hall, List.all_eq_true]
      exact hallspec
    simp [constCheckViolated, hg, hpass]

/-- Witness for C1 at a concrete session and construct. -/
theorem gate_policy_witness :
    constCheckViolated tcxA none (some ConstContext.Const)
        (NonConstExpr.Match MatchSource.TryDesugar) 0 = Except.ok [] ↔
      ∀ g ∈ [Symbol.const_try], specGateAllowed tcxA none g = true :=
  (gate_policy_refines_spec tcxA none).2 (NonConstExpr.Match MatchSource.TryDesugar)
    [Symbol.const_try] ConstContext.Const 0 rfl (by decide)

/-- C4: a compile-time trait implementation produces zero diagnostics when
its spec-side unresolved-method list is empty, and otherwise exactly one
diagnostic whose note names all unresolved method names joined in the
trait's definition order — never one diagnostic per missing method. -/
theorem const_trait_impl_single_diag (span : Span) (trait_items : List TraitItemData) :
    checkItem { span := span, kind := ItemKind.impl Constness.Const (some trait_items) } =
      (if specUnresolved trait_items = [] then []
       else [Diagnostic.const_trait_impl_err span
          "const trait implementations may not use non-const default functions"
          ("`" ++ String.intercalate "`, `" (specUnresolved trait_items) ++
            "` not implemented")]) := by
  have hg : ∀ ti : TraitItemData,
      (if ti.is_fn then
        if !ti.has_default_body || ti.default_body_is_const then none
        else
          let is_implemented := ((ti.leaf_def_is_from_trait.map (fun b => !b)).getD false)
          if !is_implemented then some ti.nm else none
      else none) =
      (if (ti.is_fn && ti.has_default_body && !ti.default_body_is_const &&
          !((ti.leaf_def_is_from_trait.map (fun b => !b)).getD false)) then some ti.nm
       else none) := by
    intro ti
    cases hf : ti.is_fn <;> cases hd : ti.has_default_body <;>
      cases hc : ti.default_body_is_const <;>
      cases hi : ((ti.leaf_def_is_from_trait.map (fun b => !b)).getD false) <;>
        simp [hf, hd, hc, hi]
  have hfm := filterMap_guard_eq _ (fun ti : TraitItemData => ti.nm) _ hg trait_items
  simp only [checkItem, hfm, specUnresolved]
  cases hcase : (trait_items.filter (fun ti =>
      ti.is_fn && ti.has_default_body && !ti.default_body_is_const &&
        !((ti.leaf_def_is_from_trait.map (fun b => !b)).getD false))).map
      (fun ti : TraitItemData => ti.nm) with
  | nil => rfl
  | cons a l => rfl

/-- C5: the `(context kind, enclosing declaration)` pair active at any node
equals the pair pushed by the nearest enclosing body or anonymous
compile-time sub-expression (threaded as an immutable inherited value by the
spec-side traversal, starting from `(none, none)`), and the visitor's
save/set/recurse/restore discipline hands the caller's pair back on every
exit path, including paths on which children produced diagnostics. -/
theorem visitor_context_refines_inherited_pair (tcx : TyCtxt) (st : VState) :
    (∀ t : Hir, visitNode tcx st t =
      (specVisitNode tcx st.const_kind st.def_id t).map (fun ds => (st, ds))) ∧
    (∀ ts : List Hir, visitList tcx st ts =
      (specVisitList tcx st.const_kind st.def_id ts).map (fun ds => (st, ds))) :=
  ⟨visitNode_eq_specVisit tcx st, visitList_eq_specVisit tcx st⟩

/-- C9: visiting a trait-implementation item first visits all of the item's
children and only then runs the impl-level override check, so every
nested-violation diagnostic precedes the impl-level summary diagnostic in
the ordered sink. -/
theorem item_children_diags_before_impl_summary (tcx : TyCtxt) (st : VState)
    (it : Item) (children : List Hir) :
    visitNode tcx st (Hir.item it children) =
      (visitList tcx st children).map (fun p => (p.1, p.2 ++ checkItem it)) := by
  cases h : visitList tcx st children with
  | error e => simp [visitNode, h, Except.map]
  | ok p =>
    cases p with
    | mk st1 ds => simp [visitNode, h, Except.map]

/-- C10: the panic inside the violation handler is unreachable — the visitor
invokes the handler only when the active context kind is present, so the
whole traversal, and the expression dispatch in particular, always returns
normally. -/
theorem visitor_never_panics (tcx : TyCtxt) (st : VState) (t : Hir) :
    (∃ r, visitNode tcx st t = Except.ok r) ∧
    (∀ (src : ExprSrc) (span : Span), ∃ ds, exprCheck tcx st src span = Except.ok ds) := by
  constructor
  · obtain ⟨ds, hds⟩ := specVisitNode_ok tcx st.const_kind st.def_id t
    refine ⟨(st, ds), ?_⟩
    rw [visitNode_eq_specVisit tcx st t, hds]
    rfl
  · intro src span
    exact exprCheck_ok tcx st src span

/-- C6: for every plain `loop` and every `while` loop inside a
compile-time-evaluated body, and for every state of the global capability
flags, no diagnostic is emitted: these constructs have an empty
required-capability list and are always allowed. -/
theorem plain_and_while_loop_always_allowed (tcx : TyCtxt) (st : VState) (span : Span) :
    exprCheck tcx st (ExprSrc.Loop LoopSource.Loop) span = Except.ok [] ∧
    exprCheck tcx st (ExprSrc.Loop LoopSource.While) span = Except.ok [] ∧
    (NonConstExpr.Loop LoopSource.Loop).required_feature_gates = some [] ∧
    (NonConstExpr.Loop LoopSource.While).required_feature_gates = some [] := by
  refine ⟨?_, ?_, rfl, rfl⟩ <;>
    simp [exprCheck, constCheckViolated, NonConstExpr.required_feature_gates]

/-- C7: an exception-propagation desugared dispatch (`?` desugaring, match
source `TryDesugar`) inside a compile-time-evaluated body is rejected
whenever its required capability `const_try` is disabled: exactly one
feature-gate diagnostic with primary gate `const_try` is emitted. -/
theorem try_desugar_rejected_when_gate_disabled (tcx : TyCtxt) (def_id : Option DefId)
    (ck : ConstContext) (span : Span)
    (h : tcx.features.enabled Symbol.const_try = false) :
    constCheckViolated tcx def_id (some ck) (NonConstExpr.Match MatchSource.TryDesugar) span =
      Except.ok [Diagnostic.feature_err Symbol.const_try span (violationMsg "`?`" ck) []] := by
  simp [constCheckViolated, NonConstExpr.required_feature_gates, is_feature_allowed, h,
    emitViolationDiag, NonConstExpr.name, MatchSource.name]

/-- Witness for C7 at a concrete session with `const_try` disabled. -/
theorem try_desugar_rejected_witness :
    constCheckViolated tcxA none (some ConstContext.Const)
        (NonConstExpr.Match MatchSource.TryDesugar) 0 =
      Except.ok [Diagnostic.feature_err Symbol.const_try 0
        (violationMsg "`?`" ConstContext.Const) []] :=
  try_desugar_rejected_when_gate_disabled tcxA none ConstContext.Const 0 rfl

/-- C2 counterexample: in session `tcxA` (no unleash flag), an
await-desugared match inside a `const` body is rejected with a plain `E0744`
diagnostic, contradicting the claim that a suspension-desugared dispatch is
never rejected and that the resolver returns none immediately. -/
theorem await_in_const_emits_diag :
    (NonConstExpr.Match MatchSource.AwaitDesugar).required_feature_gates = none ∧
    visitNode tcxA visitorNew (Hir.body 0 [Hir.expr (ExprSrc.Match MatchSource.AwaitDesugar) 5 []]) =
      Except.ok (visitorNew,
        [Diagnostic.struct_span_err "E0744" 5 "`.await` is not allowed in a `const`"]) ∧
    [Diagnostic.struct_span_err "E0744" 5 "`.await` is not allowed in a `const`"] ≠
      ([] : List Diagnostic) :=
  ⟨rfl, rfl, by decide⟩

/-- C2 amended: an await-desugared dispatch in a const context has no
required-gate list; the resolver emits only a "skipping const checks" warning
when the unchecked-evaluation escape flag is set, and otherwise emits exactly
one plain fixed-code (`E0744`) diagnostic naming the construct. -/
theorem await_desugar_resolver_behavior (tcx : TyCtxt) (def_id : Option DefId)
    (ck : ConstContext) (span : Span) :
    (NonConstExpr.Match MatchSource.AwaitDesugar).required_feature_gates = none ∧
    constCheckViolated tcx def_id (some ck) (NonConstExpr.Match MatchSource.AwaitDesugar) span =
      Except.ok (if tcx.unleash_the_miri_inside_of_you then
          [Diagnostic.span_warn span "skipping const checks"]
        else [Diagnostic.struct_span_err "E0744" span (violationMsg "`.await`" ck)]) := by
  refine ⟨rfl, ?_⟩
  cases h : tcx.unleash_the_miri_inside_of_you <;>
    simp [constCheckViolated, NonConstExpr.required_feature_gates, h, emitViolationDiag,
      NonConstExpr.name, MatchSource.name]

/-- C3 counterexample: in the staged-api session `tcxB`, `const_for` is
globally enabled, yet a for-style desugared loop inside a stable `const fn`
body still produces a diagnostic (`E0744`), contradicting the claim that no
diagnostic is produced whenever the capability is enabled. -/
theorem for_loop_enabled_still_rejected :
    tcxB.features.enabled Symbol.const_for = true ∧
    visitNode tcxB visitorNew (Hir.body 7 [Hir.expr (ExprSrc.Loop LoopSource.ForLoop) 3 []]) =
      Except.ok (visitorNew,
        [Diagnostic.struct_span_err "E0744" 3 "`for` is not allowed in a `const fn`"]) ∧
    [Diagnostic.struct_span_err "E0744" 3 "`for` is not allowed in a `const fn`"] ≠
      ([] : List Diagnostic) :=
  ⟨rfl, rfl, by decide⟩

/-- C3 amended: a for-style desugared loop in a const context yields a
feature-gate diagnostic when `const_for` is disabled, a plain `E0744` error
when `const_for` is enabled but barred by the staged-stability policy, and no
diagnostic when `const_for` is allowed for the enclosing declaration by the
four-step policy; the paired for-loop-desugar dispatch node is never
independently checked by the expression visitor. -/
theorem for_loop_gate_behavior (tcx : TyCtxt) (def_id : Option DefId)
    (ck : ConstContext) (span : Span) :
    constCheckViolated tcx def_id (some ck) (NonConstExpr.Loop LoopSource.ForLoop) span =
      Except.ok (if is_feature_allowed tcx def_id Symbol.const_for then []
        else if tcx.features.enabled Symbol.const_for then
          [Diagnostic.struct_span_err "E0744" span (violationMsg "`for`" ck)]
        else [Diagnostic.feature_err Symbol.const_for span (violationMsg "`for`" ck) []]) ∧
    (∀ st : VState, exprCheck tcx st (ExprSrc.Match MatchSource.ForLoopDesugar) span =
      Except.ok []) := by
  constructor
  · cases hA : is_feature_allowed tcx def_id Symbol.const_for <;>
      cases hE : tcx.features.enabled Symbol.const_for <;>
      simp [constCheckViolated, NonConstExpr.required_feature_gates, hA, hE,
        emitViolationDiag, NonConstExpr.name, LoopSource.name]
  · intro st
    simp [exprCheck]

/-- C8 counterexample: for a (hypothetical) construct requiring
`[const_for, const_try]` in session `tcxC`, where only the second gate is
enabled and the build is nightly, the synthesized diagnostic targets
`const_for` and carries zero supplementary hints — not the one hint the
claim predicts for a build that allows experimental opt-ins. -/
theorem two_gate_second_enabled_no_hint :
    tcxC.features.enabled Symbol.const_try = true ∧
    tcxC.features.enabled Symbol.const_for = false ∧
    tcxC.is_nightly_build = true ∧
    emitViolationDiag tcxC (some [Symbol.const_for, Symbol.const_try]) "`x`"
        ConstContext.Const 9 =
      Diagnostic.feature_err Symbol.const_for 9 (violationMsg "`x`" ConstContext.Const) [] :=
  ⟨rfl, rfl, rfl, rfl⟩

/-- C8 amended: for a construct requiring two capabilities with the first
disabled, the diagnostic's primary target is the first capability; when the
second is enabled it is not missing, so no supplementary hint is produced
on either kind of build; when the second is also disabled, it becomes
exactly one supplementary hint on a build that accepts experimental opt-ins
and none on a build that forbids them. -/
theorem two_gate_hint_behavior (tcx : TyCtxt) (nm : String) (ck : ConstContext)
    (span : Span) (g1 g2 : Symbol) (h : tcx.features.enabled g1 = false) :
    emitViolationDiag tcx (some [g1, g2]) nm ck span =
      Diagnostic.feature_err g1 span (violationMsg nm ck)
        (if tcx.features.enabled g2 then []
         else if tcx.is_nightly_build then [featureHelpNote g2] else []) := by
  cases h2 : tcx.features.enabled g2 <;> cases hn : tcx.is_nightly_build <;>
    simp [emitViolationDiag, h, h2, hn]

/-- Witness for C8's amended theorem at a concrete session with both gates
disabled on a nightly build: exactly one supplementary hint. -/
theorem two_gate_hint_witness :
    emitViolationDiag tcxA (some [Symbol.const_for, Symbol.const_try]) "`y`"
        ConstContext.ConstFn 4 =
      Diagnostic.feature_err Symbol.const_for 4 (violationMsg "`y`" ConstContext.ConstFn)
        [featureHelpNote Symbol.const_try] :=
  two_gate_hint_behavior tcxA "`y`" ConstContext.ConstFn 4 Symbol.const_for Symbol.const_try rfl

end CheckConst
